import Mathlib

/-!
Verification development for the simpleDS delay-spectrum utilities.

The Python sources modelled here are `simpleDS/delay_spectrum.py` (the numeric
pipeline: `jy_to_mk`, `delay_transform`, `combine_nsamples`,
`remove_auto_correlations`, `calculate_noise_power`, `generate_noise`) and
`simpleDS/parameter.py` (`UnitParameter.__eq__`).

Modelling conventions:
* Machine floats are idealised as real numbers `ℝ`, complex arrays as `ℂ`.
* An astropy `Quantity` is a value tagged with a `PhysUnit`: an SI scale factor
  together with a vector of rational dimension exponents (time, length, mass,
  temperature).  `Quantity.to(unit)` succeeds exactly when the dimension
  vectors agree and multiplies the value by the ratio of scale factors.
* Python exceptions (`ValueError`, `AssertionError`, numpy `IndexError`,
  astropy `UnitConversionError`) are modelled with `Except String`.
* numpy arrays of statically known rank are modelled as `Fin`-indexed
  functions; `remove_auto_correlations`, which dispatches on the rank of its
  argument at run time, is modelled over a dynamically shaped `NDArray`
  (a shape list plus a row-major flat data list), so that wrong-rank inputs
  are expressible.
* Optional Python arguments (`data_2_array=None`, `delta_f=1.*units.Hz`) are
  modelled with `Option`; `x.copy()` of a caller array is value-level identity
  in this pure embedding.
-/

namespace SimpleDS

/-- Vector of physical-dimension exponents (time, length, mass, temperature),
mirroring the dimensional content of an astropy unit. -/
structure Dims where
  time : ℚ
  dlen : ℚ
  mass : ℚ
  temp : ℚ
deriving DecidableEq, Repr

def Dims.zero : Dims := ⟨0, 0, 0, 0⟩

def Dims.add (a b : Dims) : Dims :=
  ⟨a.time + b.time, a.dlen + b.dlen, a.mass + b.mass, a.temp + b.temp⟩

def Dims.sub (a b : Dims) : Dims :=
  ⟨a.time - b.time, a.dlen - b.dlen, a.mass - b.mass, a.temp - b.temp⟩

def Dims.qsmul (q : ℚ) (a : Dims) : Dims :=
  ⟨q * a.time, q * a.dlen, q * a.mass, q * a.temp⟩

/-- An astropy unit: an SI scale factor and a dimension vector. -/
structure PhysUnit where
  scale : ℝ
  dim : Dims

noncomputable def PhysUnit.mulU (u v : PhysUnit) : PhysUnit :=
  ⟨u.scale * v.scale, u.dim.add v.dim⟩

noncomputable def PhysUnit.divU (u v : PhysUnit) : PhysUnit :=
  ⟨u.scale / v.scale, u.dim.sub v.dim⟩

/-- Unit of `np.sqrt` applied to a quantity: square root of the scale, half
the dimension exponents. -/
noncomputable def PhysUnit.sqrtU (u : PhysUnit) : PhysUnit :=
  ⟨Real.sqrt u.scale, Dims.qsmul (1/2) u.dim⟩

/-- Unit of `np.power(q, e)` for a rational exponent `e`. -/
noncomputable def PhysUnit.qpow (u : PhysUnit) (e : ℚ) : PhysUnit :=
  ⟨u.scale ^ (e : ℝ), Dims.qsmul e u.dim⟩

/-- The dimensionless unit `1.` used by `delay_transform` for plain arrays. -/
def unitOne : PhysUnit := ⟨1, Dims.zero⟩

def Hz : PhysUnit := ⟨1, ⟨-1, 0, 0, 0⟩⟩

noncomputable def GHzUnit : PhysUnit := ⟨10 ^ (9 : ℕ), ⟨-1, 0, 0, 0⟩⟩

/-- The unit `1/s` targeted by `.to('1/s')`. -/
def invSec : PhysUnit := ⟨1, ⟨-1, 0, 0, 0⟩⟩

def secUnit : PhysUnit := ⟨1, ⟨1, 0, 0, 0⟩⟩

def Kel : PhysUnit := ⟨1, ⟨0, 0, 0, 1⟩⟩

noncomputable def mKel : PhysUnit := ⟨1/1000, ⟨0, 0, 0, 1⟩⟩

def meterUnit : PhysUnit := ⟨1, ⟨0, 1, 0, 0⟩⟩

noncomputable def cmUnit : PhysUnit := ⟨1/100, ⟨0, 1, 0, 0⟩⟩

/-- `m/s`, the unit of `const.c`. -/
def mPerS : PhysUnit := ⟨1, ⟨-1, 1, 0, 0⟩⟩

/-- `J/K`, the unit of `const.k_B` (J/K = kg m^2 s^-2 K^-1). -/
def JperK : PhysUnit := ⟨1, ⟨-2, 2, 1, -1⟩⟩

/-- `Jy` = 1e-26 W m^-2 Hz^-1 = 1e-26 kg s^-2. -/
noncomputable def JyUnit : PhysUnit := ⟨1 / 10 ^ (26 : ℕ), ⟨-2, 0, 1, 0⟩⟩

/-- `mK/Jy`, the target unit of `jy_to_mk`. -/
noncomputable def mKperJy : PhysUnit := PhysUnit.divU mKel JyUnit

/-- An astropy `Quantity`: a value (scalar or array) tagged with a unit. -/
structure Quant (α : Type) where
  val : α
  unit : PhysUnit

def unitConvMsg : String := "UnitConversionError"

/-- `Quantity.to(u)`: requires dimensional equivalence, rescales the value by
the ratio of SI scale factors; otherwise astropy raises
`UnitConversionError`. -/
noncomputable def Quant.to {α : Type} [SMul ℝ α] (q : Quant α) (u : PhysUnit) :
    Except String (Quant α) :=
  if q.unit.dim = u.dim then
    .ok ⟨(q.unit.scale / u.scale) • q.val, u⟩
  else
    .error unitConvMsg

/-- An argument that is either a plain numeric value/array or an astropy
Quantity — the two cases the code distinguishes with
`isinstance(..., Quantity)`. -/
inductive QOr (α : Type) where
  | plain (x : α)
  | qty (q : Quant α)

/-- The underlying numeric values of the argument. -/
def QOr.values {α : Type} : QOr α → α
  | .plain x => x
  | .qty q => q.val

/-- `unit = data.unit if isinstance(data, Quantity) else 1.`. -/
def QOr.unitOf {α : Type} : QOr α → PhysUnit
  | .plain _ => unitOne
  | .qty q => q.unit

/-! ### Dynamically shaped numpy arrays and `remove_auto_correlations` -/

def rankErrMsg : String := "Input data_array must be of type (Npols, Nbls, Nbls, Ntimes, Nfreqs) or (Nbls, Nbls, Ntimes, Nfreqs)"

def indexErrMsg : String := "IndexError: boolean index shape mismatch"

/-- A numpy array of arbitrary rank: a shape together with the row-major
flattened data. -/
structure NDArray (α : Type) where
  shape : List ℕ
  data : List α
deriving DecidableEq, Repr

/-- Contiguous row-major slice of flat data: `len` entries starting at
`off`. -/
def npTake {α : Type} (data : List α) (off len : ℕ) : List α :=
  (data.drop off).take len

/-- The boolean matrix `np.diag(np.ones(Nbls, dtype=bool))`: ones on the
diagonal. -/
def npDiagOnes (_n : ℕ) : ℕ → ℕ → Bool := fun i j => i == j

/-- `np.logical_not` of the diagonal mask: True off the diagonal, False on
the diagonal. -/
def autoMask (n : ℕ) : ℕ → ℕ → Bool := fun i j => !(npDiagOnes n i j)

/-- Row-major traversal of the True positions of a boolean mask over an
`n0 × n1` index square — the order in which numpy boolean indexing emits
selected entries. -/
def maskTruePairs (mask : ℕ → ℕ → Bool) (n0 n1 : ℕ) : List (ℕ × ℕ) :=
  (List.range n0).flatMap fun i =>
    ((List.range n1).filter (fun j => mask i j)).map (fun j => (i, j))

/-- numpy boolean-mask indexing over the first two axes of a row-major flat
array whose remaining axes have `rest` total entries per (i, j) block. -/
def boolIndexFirst2 {α : Type} (mask : ℕ → ℕ → Bool) (n0 n1 rest : ℕ)
    (data : List α) : List α :=
  (maskTruePairs mask n0 n1).flatMap fun ij =>
    npTake data ((ij.1 * n1 + ij.2) * rest) rest

/-- `remove_auto_correlations` from `delay_spectrum.py`: dispatches on the
rank of the input, builds the off-diagonal boolean mask over the
(baseline, baseline) square, and selects with it (numpy boolean indexing
collapses the two masked axes into one axis whose length is the number of
True entries).  Any rank other than 4 or 5 raises `ValueError`; a
non-square baseline block would make the mask shape mismatch the indexed
axes, which numpy reports as an `IndexError`. -/
def remove_auto_correlations {α : Type} (a : NDArray α) :
    Except String (NDArray α) :=
  if a.shape.length = 4 then
    let nbls := a.shape.getD 0 0
    if a.shape.getD 1 0 = nbls then
      let rest := (a.shape.drop 2).prod
      .ok ⟨(maskTruePairs (autoMask nbls) nbls nbls).length :: a.shape.drop 2,
           boolIndexFirst2 (autoMask nbls) nbls nbls rest a.data⟩
    else .error indexErrMsg
  else if a.shape.length = 5 then
    let nbls := a.shape.getD 1 0
    if a.shape.getD 2 0 = nbls then
      let npols := a.shape.getD 0 0
      let rest := (a.shape.drop 3).prod
      let slice := nbls * nbls * rest
      .ok ⟨npols :: (maskTruePairs (autoMask nbls) nbls nbls).length ::
             a.shape.drop 3,
           (List.range npols).flatMap fun q =>
             boolIndexFirst2 (autoMask nbls) nbls nbls rest
               (npTake a.data (q * slice) slice)⟩
    else .error indexErrMsg
  else
    .error rankErrMsg

/-- Spec-side pair order for the off-diagonal selection, written from the
claim: baseline_1 increases first and, for each baseline_1, all
baseline_2 different from baseline_1 appear in ascending order. -/
def offDiagPairs (n : ℕ) : List (ℕ × ℕ) :=
  (List.range n).flatMap fun b1 =>
    ((List.range n).filter (fun b2 => b2 != b1)).map (fun b2 => (b1, b2))

/-! ### `np.fft` and `delay_transform` -/

def deltaFMsg : String := "delta_f must be an astropy Quantity object."

/-- `np.fft.fft`: the unnormalised discrete Fourier transform
`X_k = sum_n x_n exp(-2 pi i k n / N)` along a length-`n` axis. -/
noncomputable def npFFT {n : ℕ} (x : Fin n → ℂ) : Fin n → ℂ :=
  fun k => ∑ j : Fin n, x j *
    Complex.exp (-2 * Real.pi * Complex.I * k.val * j.val / n)

/-- `np.fft.fftshift` along a length-`n` axis: cyclic roll by `n / 2`, so the
zero bin moves to the centre; `out[k] = in[(k + n - n / 2) % n]`. -/
def npFFTshift {α : Type} {n : ℕ} (x : Fin n → α) : Fin n → α :=
  fun k => x ⟨(k.val + (n - n / 2)) % n, Nat.mod_lt _ k.pos⟩

/-- Rank-3 data array `(Nbls, Ntimes, Nfreqs)` of complex visibilities. -/
abbrev Arr3 (b t f : ℕ) := Fin b → Fin t → Fin f → ℂ

/-- Rank-4 data array `(Npols, Nbls, Ntimes, Nfreqs)`. -/
abbrev Arr4 (p b t f : ℕ) := Fin p → Fin b → Fin t → Fin f → ℂ

/-- `x.copy()` on a caller-supplied array: in the pure value semantics of the
embedding an exact independent copy is the value itself. -/
def npCopy {α : Type} (x : α) : α := x

/-- `delay_transform` from `delay_spectrum.py`, rank-3 input branch
(`len(data_1_array.shape) == 3`).  Faithful to the source order:
read `unit` off `data_1_array`, reject a non-Quantity `delta_f`
(`ValueError`), default `data_2_array` to a copy of `data_1_array`, taper
with `window(nfreqs)` broadcast along the last axis, FFT + fftshift along
the last axis, multiply by `delta_f.to('1/s')` and by `unit`, and
cross-multiply `delay_1_array[None].conj() * delay_2_array[:, None]`.
The shape-equality check on the two inputs holds by type here.  An absent
`delta_f` defaults to the Quantity `1. * units.Hz`.  The
`delta_f.to('1/s')` conversion, which the source evaluates at the
normalization line after the FFT of `data_1`, is bound before the
transforms here; since the FFT itself cannot fail, the `Except` results
coincide for every input. -/
noncomputable def delay_transform3 {b t f : ℕ} (data_1_array : QOr (Arr3 b t f))
    (data_2_array : Option (QOr (Arr3 b t f))) (delta_f : Option (QOr ℝ))
    (window : (n : ℕ) → Fin n → ℝ) :
    Except String (Quant (Fin b → Fin b → Fin t → Fin f → ℂ)) :=
  let unit := data_1_array.unitOf
  let df := delta_f.getD (.qty ⟨1, Hz⟩)
  match df with
  | .plain _ => .error deltaFMsg
  | .qty dfq =>
    let d2 := data_2_array.getD (npCopy data_1_array)
    let win := window f
    match dfq.to invSec with
    | .error e => .error e
    | .ok dfi =>
      let delay_1 : Arr3 b t f := fun bl ti => npFFTshift
        (npFFT (fun fi => data_1_array.values bl ti fi * (win fi : ℂ)))
      let delay_1 : Arr3 b t f := fun bl ti fi =>
        delay_1 bl ti fi * (dfi.val : ℂ)
      let delay_2 : Arr3 b t f := fun bl ti => npFFTshift
        (npFFT (fun fi => d2.values bl ti fi * (win fi : ℂ)))
      let delay_2 : Arr3 b t f := fun bl ti fi =>
        delay_2 bl ti fi * (dfi.val : ℂ)
      .ok ⟨fun b1 b2 ti fi => star (delay_1 b2 ti fi) * delay_2 b1 ti fi,
           (dfi.unit.mulU unit).mulU (dfi.unit.mulU unit)⟩

/-- `delay_transform`, rank-4 input branch (leading polarisation axis);
cross-multiplication `delay_1[:, None].conj() * delay_2[:, :, None]`. -/
noncomputable def delay_transform4 {p b t f : ℕ} (data_1_array : QOr (Arr4 p b t f))
    (data_2_array : Option (QOr (Arr4 p b t f))) (delta_f : Option (QOr ℝ))
    (window : (n : ℕ) → Fin n → ℝ) :
    Except String (Quant (Fin p → Fin b → Fin b → Fin t → Fin f → ℂ)) :=
  let unit := data_1_array.unitOf
  let df := delta_f.getD (.qty ⟨1, Hz⟩)
  match df with
  | .plain _ => .error deltaFMsg
  | .qty dfq =>
    let d2 := data_2_array.getD (npCopy data_1_array)
    let win := window f
    match dfq.to invSec with
    | .error e => .error e
    | .ok dfi =>
      let delay_1 : Arr4 p b t f := fun po bl ti => npFFTshift
        (npFFT (fun fi => data_1_array.values po bl ti fi * (win fi : ℂ)))
      let delay_1 : Arr4 p b t f := fun po bl ti fi =>
        delay_1 po bl ti fi * (dfi.val : ℂ)
      let delay_2 : Arr4 p b t f := fun po bl ti => npFFTshift
        (npFFT (fun fi => d2.values po bl ti fi * (win fi : ℂ)))
      let delay_2 : Arr4 p b t f := fun po bl ti fi =>
        delay_2 po bl ti fi * (dfi.val : ℂ)
      .ok ⟨fun po b1 b2 ti fi => star (delay_1 po b2 ti fi) * delay_2 po b1 ti fi,
           (dfi.unit.mulU unit).mulU (dfi.unit.mulU unit)⟩

/-- Spec-side rank-3 delay transform, written from the claim: taper with
`window(Nfreqs)` along the frequency axis, DFT along that axis, FFT-shift,
multiply by `delta_f` converted to inverse seconds and by `data_1`'s
original unit, then pair every baseline of `data_1`'s transform
(conjugated) with every baseline of `data_2`'s transform on a new
baseline axis, giving shape `(baseline_1, baseline_2, time, freq)`. -/
noncomputable def delayTransformSpec3 {b t f : ℕ} (data_1 data_2 : QOr (Arr3 b t f))
    (delta_f : Quant ℝ) (window : (n : ℕ) → Fin n → ℝ) :
    Quant (Fin b → Fin b → Fin t → Fin f → ℂ) :=
  let u := data_1.unitOf
  let dfInvSec : ℝ := (delta_f.unit.scale / invSec.scale) * delta_f.val
  let transform : Arr3 b t f → Arr3 b t f := fun x bl ti fi =>
    npFFTshift (npFFT (fun fj => x bl ti fj * (window f fj : ℂ))) fi *
      (dfInvSec : ℂ)
  ⟨fun b1 b2 ti fi =>
      star (transform data_1.values b2 ti fi) * transform data_2.values b1 ti fi,
   (invSec.mulU u).mulU (invSec.mulU u)⟩

/-- Spec-side rank-4 delay transform: same steps with a leading polarisation
axis; output shape `(pol, baseline_1, baseline_2, time, freq)`. -/
noncomputable def delayTransformSpec4 {p b t f : ℕ} (data_1 data_2 : QOr (Arr4 p b t f))
    (delta_f : Quant ℝ) (window : (n : ℕ) → Fin n → ℝ) :
    Quant (Fin p → Fin b → Fin b → Fin t → Fin f → ℂ) :=
  let u := data_1.unitOf
  let dfInvSec : ℝ := (delta_f.unit.scale / invSec.scale) * delta_f.val
  let transform : Arr4 p b t f → Arr4 p b t f := fun x po bl ti fi =>
    npFFTshift (npFFT (fun fj => x po bl ti fj * (window f fj : ℂ))) fi *
      (dfInvSec : ℂ)
  ⟨fun po b1 b2 ti fi =>
      star (transform data_1.values po b2 ti fi) *
        transform data_2.values po b1 ti fi,
   (invSec.mulU u).mulU (invSec.mulU u)⟩

/-! ### `combine_nsamples`, `generate_noise`, `jy_to_mk` -/

/-- Rank-3 real sample-count array `(Nbls, Ntimes, Nfreqs)`. -/
abbrev RArr3 (b t f : ℕ) := Fin b → Fin t → Fin f → ℝ

/-- Rank-4 real sample-count array `(Npols, Nbls, Ntimes, Nfreqs)`. -/
abbrev RArr4 (p b t f : ℕ) := Fin p → Fin b → Fin t → Fin f → ℝ

/-- `combine_nsamples` from `delay_spectrum.py`, rank-3 branch:
`np.sqrt(nsample_1[None, :, :] * nsample_2[:, None, :, :])`, so entry
`(b1, b2)` is `sqrt(nsample_1[b2] * nsample_2[b1])`; an omitted second
array defaults to a copy of the first. -/
noncomputable def combine_nsamples3 {b t f : ℕ} (nsample_1 : RArr3 b t f)
    (nsample_2 : Option (RArr3 b t f)) :
    Fin b → Fin b → Fin t → Fin f → ℝ :=
  let n2 := nsample_2.getD (npCopy nsample_1)
  fun b1 b2 ti fi => Real.sqrt (nsample_1 b2 ti fi * n2 b1 ti fi)

/-- `combine_nsamples`, rank-4 branch:
`np.sqrt(nsample_1[:, None, :, :] * nsample_2[:, :, None, :, :])`. -/
noncomputable def combine_nsamples4 {p b t f : ℕ} (nsample_1 : RArr4 p b t f)
    (nsample_2 : Option (RArr4 p b t f)) :
    Fin p → Fin b → Fin b → Fin t → Fin f → ℝ :=
  let n2 := nsample_2.getD (npCopy nsample_1)
  fun po b1 b2 ti fi => Real.sqrt (nsample_1 po b2 ti fi * n2 po b1 ti fi)

/-- `generate_noise` from `delay_spectrum.py`, with the two standard-normal
draws `np.random.normal(size=noise_power.shape)` supplied as explicit
oracle arguments `gre` (real draw) and `gim` (imaginary draw):
`noise = noise_power * (1 * gre + 1j * gim); noise /= np.sqrt(2)`. -/
noncomputable def generate_noise {n : ℕ} (noise_power : Fin n → ℝ)
    (gre gim : Fin n → ℝ) : Fin n → ℂ :=
  let noise : Fin n → ℂ := fun i =>
    (noise_power i : ℂ) * (1 * (gre i : ℂ) + Complex.I * (gim i : ℂ))
  fun i => noise i / (Real.sqrt 2 : ℂ)

def assertMsg : String := "AssertionError"

/-- `const.c` in m/s (exact SI value). -/
def constC : Quant ℝ := ⟨299792458, mPerS⟩

/-- `const.k_B` in J/K (exact SI value). -/
noncomputable def constKB : Quant ℝ := ⟨1.380649e-23, JperK⟩

/-- `jy_to_mk` from `delay_spectrum.py`:
`assert isinstance(freqs, Quantity)`, then
`const.c.to('m/s')**2 / (2 * freqs.to('1/s')**2 * const.k_B)` converted to
`mK/Jy`. -/
noncomputable def jy_to_mk (freqs : QOr ℝ) : Except String (Quant ℝ) :=
  match freqs with
  | .plain _ => .error assertMsg
  | .qty fq =>
    match constC.to mPerS with
    | .error e => .error e
    | .ok cq =>
      match fq.to invSec with
      | .error e => .error e
      | .ok fs =>
        let num : Quant ℝ := ⟨cq.val ^ (2 : ℕ), cq.unit.qpow 2⟩
        let den : Quant ℝ :=
          ⟨2 * fs.val ^ (2 : ℕ) * constKB.val,
           (fs.unit.qpow 2).mulU constKB.unit⟩
        let jy2t : Quant ℝ := ⟨num.val / den.val, num.unit.divU den.unit⟩
        jy2t.to mKperJy

/-- Spec-side value of `jy_to_mk` on a frequency quantity, written from the
claim: `c^2 / (2 * freqs^2 * k_B)` with the frequency in SI inverse
seconds, converted to milliKelvin per Jansky (divide the SI value by the
`mK/Jy` scale factor). -/
noncomputable def jyToMkSpec (fq : Quant ℝ) : Quant ℝ :=
  let nuSI : ℝ := fq.val * fq.unit.scale
  let siValue : ℝ := constC.val ^ (2 : ℕ) / (2 * nuSI ^ (2 : ℕ) * constKB.val)
  ⟨siValue / mKperJy.scale, mKperJy⟩

/-! ### `calculate_noise_power` -/

def inttimeMsg : String := "inttime must be an astropy Quantity object."

def freqsMsg : String := "freqs must be an astropy Quantity object."

def trcvrMsg : String := "trcvr must be an astropy Quantity object."

def diffIndexMsg : String := "IndexError: np.diff on a length-1 frequency axis"

/-- Quantity addition as astropy performs it: convert the right operand to
the left operand's unit, then add values. -/
noncomputable def addScalarQ {nf : ℕ} (a : Quant (Fin nf → ℝ)) (b : Quant ℝ) :
    Except String (Quant (Fin nf → ℝ)) :=
  match b.to a.unit with
  | .error e => .error e
  | .ok b' => .ok ⟨fun i => a.val i + b'.val, a.unit⟩

/-- `calculate_noise_power` from `delay_spectrum.py`.  The three
`isinstance(..., Quantity)` guards run first, in source order `inttime`,
`freqs`, `trcvr`, each with its own `ValueError` message.  Then
`Tsys = 180.*units.K * np.power(freqs.to('GHz')/(.18*units.GHz), -2.55)`,
`Tsys += trcvr.to('K')`, `delta_f = np.diff(freqs)[0]`, and
`noise_power = Tsys.to('K') / np.sqrt(delta_f.to('1/s') * inttime.to('s')
* nsamples)`. -/
noncomputable def calculate_noise_power {nf : ℕ} (nsamples : Fin nf → ℝ)
    (freqs : QOr (Fin nf → ℝ)) (inttime : QOr ℝ) (trcvr : QOr ℝ) :
    Except String (Quant (Fin nf → ℝ)) :=
  match inttime with
  | .plain _ => .error inttimeMsg
  | .qty it =>
  match freqs with
  | .plain _ => .error freqsMsg
  | .qty fq =>
  match trcvr with
  | .plain _ => .error trcvrMsg
  | .qty tr =>
  match fq.to GHzUnit with
  | .error e => .error e
  | .ok fGHz =>
    let ratio : Quant (Fin nf → ℝ) :=
      ⟨fun i => fGHz.val i / (0.18 : ℝ), fGHz.unit.divU GHzUnit⟩
    let powTerm : Quant (Fin nf → ℝ) :=
      ⟨fun i => ratio.val i ^ ((-2.55 : ℚ) : ℝ), ratio.unit.qpow (-2.55)⟩
    let tsys0 : Quant (Fin nf → ℝ) :=
      ⟨fun i => 180 * powTerm.val i, Kel.mulU powTerm.unit⟩
    match tr.to Kel with
    | .error e => .error e
    | .ok trK =>
    match addScalarQ tsys0 trK with
    | .error e => .error e
    | .ok tsys =>
    if h : 1 < nf then
      let delta_f : Quant ℝ :=
        ⟨fq.val ⟨1, h⟩ - fq.val ⟨0, Nat.lt_of_le_of_lt (Nat.zero_le 1) h⟩,
         fq.unit⟩
      match delta_f.to invSec with
      | .error e => .error e
      | .ok dfi =>
      match it.to secUnit with
      | .error e => .error e
      | .ok its =>
      match tsys.to Kel with
      | .error e => .error e
      | .ok tsysK =>
        let inner : Quant (Fin nf → ℝ) :=
          ⟨fun i => dfi.val * its.val * nsamples i, dfi.unit.mulU its.unit⟩
        let root : Quant (Fin nf → ℝ) :=
          ⟨fun i => Real.sqrt (inner.val i), inner.unit.sqrtU⟩
        .ok ⟨fun i => tsysK.val i / root.val i, tsysK.unit.divU root.unit⟩
    else .error diffIndexMsg

/-- Spec-side noise power, written from the claim:
`T_sys = 180 K * (nu / 0.18 GHz)^(-2.55) + trcvr` elementwise over the
frequencies (taken in SI inverse seconds), the channel width is the first
successive difference of `freqs` converted to inverse seconds, `inttime`
is converted to seconds, and the result is
`T_sys / sqrt(channel_width * inttime * nsamples)` in Kelvin. -/
noncomputable def noisePowerSpec {nf : ℕ} (nsamples : Fin nf → ℝ)
    (fq : Quant (Fin nf → ℝ)) (it : Quant ℝ) (tr : Quant ℝ) (h : 1 < nf) :
    Quant (Fin nf → ℝ) :=
  let nuSI : Fin nf → ℝ := fun i => fq.val i * fq.unit.scale
  let trKel : ℝ := tr.val * tr.unit.scale
  let tsys : Fin nf → ℝ := fun i =>
    180 * (nuSI i / (0.18 * 10 ^ (9 : ℕ))) ^ ((-2.55 : ℚ) : ℝ) + trKel
  let channelWidth : ℝ :=
    (fq.val ⟨1, h⟩ - fq.val ⟨0, Nat.lt_of_le_of_lt (Nat.zero_le 1) h⟩) *
      fq.unit.scale
  let inttimeSec : ℝ := it.val * it.unit.scale
  ⟨fun i => tsys i / Real.sqrt (channelWidth * inttimeSec * nsamples i), Kel⟩

/-! ### `UnitParameter.__eq__` (parameter.py) -/

/-- A quantity-valued `UnitParameter` (the branch of `parameter.py` relevant
to the equality claim): a named value holding an array Quantity (dynamic
length, modelling `numpy` shape), relative/absolute tolerances, and the
unit attached to the absolute tolerance (`none` models a plain-number
`tols[1]`). -/
structure UnitParameter where
  pname : String
  value : Quant (List ℝ)
  rtol : ℝ
  atol : ℝ
  atolUnit : Option PhysUnit

/-- `np.allclose(a, b, rtol, atol)` elementwise over paired entries. -/
def npAllclose (a b : List ℝ) (rtol atol : ℝ) : Prop :=
  ∀ p ∈ a.zip b, |p.1 - p.2| ≤ atol + rtol * |p.2|

/-- `UnitParameter.__eq__` for two quantity-valued parameters, as a state
transformer returning `(result, self_after, other_after)`.  Following the
source: if `self.tols[1]` has no unit, rebind it with `self.value`'s unit
attached; if the value shapes differ return `False`; if the units are not
equivalent return `False`; otherwise overwrite `other.value` with
`other.value.to(self.value.unit)` and compare with `np.allclose`. -/
noncomputable def UnitParameter.eqQty (s o : UnitParameter) :
    Bool × UnitParameter × UnitParameter :=
  letI : ∀ (P : Prop), Decidable P := fun P => Classical.propDecidable P
  let s' := match s.atolUnit with
    | none => { s with atolUnit := some s.value.unit }
    | some _ => s
  if s'.value.val.length = o.value.val.length then
    if s'.value.unit.dim = o.value.unit.dim then
      let converted : Quant (List ℝ) :=
        ⟨o.value.val.map (fun x => (o.value.unit.scale / s'.value.unit.scale) * x),
         s'.value.unit⟩
      let o' := { o with value := converted }
      (if npAllclose s'.value.val o'.value.val s'.rtol s'.atol then true
       else false, s', o')
    else (false, s', o)
  else (false, s', o)

/-! ### Theorems -/

/-- C7: for both `delay_transform` and `combine_nsamples` (rank-3 and rank-4
branches), omitting the second array argument produces the same result as
passing an exact independent copy of the first; the embedding is a pure
function of the argument values, so neither call can mutate the
caller-supplied arrays. -/
theorem omitted_second_array_equals_copy :
    (∀ (b t f : ℕ) (d1 : QOr (Arr3 b t f)) (df : Option (QOr ℝ))
        (w : (n : ℕ) → Fin n → ℝ),
        delay_transform3 d1 none df w =
          delay_transform3 d1 (some (npCopy d1)) df w)
    ∧ (∀ (p b t f : ℕ) (d1 : QOr (Arr4 p b t f)) (df : Option (QOr ℝ))
        (w : (n : ℕ) → Fin n → ℝ),
        delay_transform4 d1 none df w =
          delay_transform4 d1 (some (npCopy d1)) df w)
    ∧ (∀ (b t f : ℕ) (n1 : RArr3 b t f),
        combine_nsamples3 n1 none = combine_nsamples3 n1 (some (npCopy n1)))
    ∧ (∀ (p b t f : ℕ) (n1 : RArr4 p b t f),
        combine_nsamples4 n1 none = combine_nsamples4 n1 (some (npCopy n1))) :=
  ⟨fun _ _ _ _ _ _ => rfl, fun _ _ _ _ _ _ _ => rfl,
   fun _ _ _ _ => rfl, fun _ _ _ _ _ => rfl⟩

/-- C8: with the two standard-normal draws supplied as oracles,
`generate_noise(p)` is `p * (g_re + i * g_im) / sqrt 2` elementwise (a
complex array of the same shape as `p`, by type), and the squared modulus
of each element is `p^2 * (g_re^2 + g_im^2) / 2`, so the total
real-plus-imaginary variance matches `p^2` instead of doubling it. -/
theorem generate_noise_matches_spec :
    ∀ (n : ℕ) (p gre gim : Fin n → ℝ) (i : Fin n),
      generate_noise p gre gim i =
        (p i : ℂ) * ((gre i : ℂ) + Complex.I * (gim i : ℂ)) /
          (Real.sqrt 2 : ℂ)
      ∧ Complex.normSq (generate_noise p gre gim i) =
          p i ^ 2 * (gre i ^ 2 + gim i ^ 2) / 2 := by
  intro n p gre gim i
  constructor
  · simp [generate_noise]
  · simp only [generate_noise, one_mul, Complex.normSq_div, Complex.normSq_mul,
      Complex.normSq_ofReal]
    rw [mul_comm Complex.I (((gim i : ℝ) : ℂ)), Complex.normSq_add_mul_I,
      Real.mul_self_sqrt (by norm_num : (0:ℝ) ≤ 2)]
    ring

/-- C6: `calculate_noise_power` rejects a plain (non-Quantity) `inttime`,
`freqs` or `trcvr` with a `ValueError` before any computation (the guards
are the first statements of the function and the `Except` value is the
error immediately); each argument has its own check and the three error
messages are pairwise distinct, each naming its argument. -/
theorem noise_power_rejects_plain_arguments :
    (∀ (nf : ℕ) (ns : Fin nf → ℝ) (fqs : QOr (Fin nf → ℝ)) (trs : QOr ℝ)
        (x : ℝ), calculate_noise_power ns fqs (.plain x) trs =
          .error inttimeMsg)
    ∧ (∀ (nf : ℕ) (ns : Fin nf → ℝ) (x : Fin nf → ℝ) (it : Quant ℝ)
        (trs : QOr ℝ), calculate_noise_power ns (.plain x) (.qty it) trs =
          .error freqsMsg)
    ∧ (∀ (nf : ℕ) (ns : Fin nf → ℝ) (fq : Quant (Fin nf → ℝ)) (it : Quant ℝ)
        (x : ℝ), calculate_noise_power ns (.qty fq) (.qty it) (.plain x) =
          .error trcvrMsg)
    ∧ inttimeMsg ≠ freqsMsg ∧ inttimeMsg ≠ trcvrMsg ∧ freqsMsg ≠ trcvrMsg :=
  ⟨fun _ _ _ _ _ => rfl, fun _ _ _ _ _ => rfl, fun _ _ _ _ _ => rfl,
   by decide, by decide, by decide⟩

/-- C5 counterexample: a call to `delay_transform` with the `delta_f`
argument absent does NOT fail — the Python default `1. * units.Hz` is an
astropy Quantity, so the call succeeds on valid data, contradicting the
claim that an absent `delta_f` fails with a validation error. -/
theorem delay_transform_absent_delta_f_succeeds :
    (delay_transform3 (.plain (fun _ _ _ => 0 : Arr3 1 1 1))
      (some (.plain (fun _ _ _ => 0))) none (fun _ _ => 1)).isOk = true := rfl

/-- C5 amended: a `delta_f` argument that is passed and is not an astropy
Quantity fails with the `ValueError` raised by the type guard before the
transform; an absent `delta_f` falls back to the default Quantity
`1. * units.Hz` (see the counterexample); a `delta_f` Quantity whose unit
is not of inverse-time dimension makes the call fail with astropy's
`UnitConversionError` at the `delta_f.to('1/s')` normalization step
(which in the source runs only after the FFT of `data_1` is computed). -/
theorem delay_transform_delta_f_validation :
    (∀ (b t f : ℕ) (d1 : QOr (Arr3 b t f)) (d2 : Option (QOr (Arr3 b t f)))
        (x : ℝ) (w : (n : ℕ) → Fin n → ℝ),
        delay_transform3 d1 d2 (some (.plain x)) w = .error deltaFMsg)
    ∧ (∀ (p b t f : ℕ) (d1 : QOr (Arr4 p b t f))
        (d2 : Option (QOr (Arr4 p b t f))) (x : ℝ)
        (w : (n : ℕ) → Fin n → ℝ),
        delay_transform4 d1 d2 (some (.plain x)) w = .error deltaFMsg)
    ∧ (∀ (b t f : ℕ) (d1 : QOr (Arr3 b t f)) (d2 : Option (QOr (Arr3 b t f)))
        (df : Quant ℝ) (w : (n : ℕ) → Fin n → ℝ), df.unit.dim ≠ invSec.dim →
        delay_transform3 d1 d2 (some (.qty df)) w = .error unitConvMsg)
    ∧ (∀ (p b t f : ℕ) (d1 : QOr (Arr4 p b t f))
        (d2 : Option (QOr (Arr4 p b t f))) (df : Quant ℝ)
        (w : (n : ℕ) → Fin n → ℝ), df.unit.dim ≠ invSec.dim →
        delay_transform4 d1 d2 (some (.qty df)) w = .error unitConvMsg) := by
  refine ⟨fun _ _ _ _ _ _ _ => rfl, fun _ _ _ _ _ _ _ _ => rfl, ?_, ?_⟩
  · intro b t f d1 d2 df w h
    simp [delay_transform3, Quant.to, h]
  · intro p b t f d1 d2 df w h
    simp [delay_transform4, Quant.to, h]

/-- C5 amended, witness: a Kelvin-valued `delta_f` Quantity has the wrong
dimension and the rank-3 call fails with the unit-conversion error. -/
theorem delay_transform_delta_f_validation_witness :
    (Quant.mk (1 : ℝ) Kel).unit.dim ≠ invSec.dim ∧
    delay_transform3 (.plain (fun _ _ _ => 0 : Arr3 1 1 1)) none
      (some (.qty ⟨1, Kel⟩)) (fun _ _ => 1) = .error unitConvMsg :=
  ⟨by decide,
   delay_transform_delta_f_validation.2.2.1 1 1 1 (.plain (fun _ _ _ => 0))
     none ⟨1, Kel⟩ (fun _ _ => 1) (by decide)⟩

/-- Concrete non-constant sample array used to refute C4: two baselines with
values 1 and 4 (one time, one frequency). -/
noncomputable def nsampleCounter : RArr3 2 1 1 := fun bl _ _ => ![(1 : ℝ), 4] bl

/-- C4 counterexample: `combine_nsamples(n, n)` does not equal `n`
elementwise.  The output lives on a doubled baseline square, and the
off-diagonal entry `(0, 1)` is `sqrt(n[1] * n[0]) = 2`, which differs
from both `n[0] = 1` and `n[1] = 4`, so no elementwise correspondence
with `n` holds. -/
theorem combine_nsamples_self_not_elementwise :
    combine_nsamples3 nsampleCounter (some nsampleCounter) 0 1 0 0 ≠
      nsampleCounter 0 0 0 ∧
    combine_nsamples3 nsampleCounter (some nsampleCounter) 0 1 0 0 ≠
      nsampleCounter 1 0 0 := by
  have hval : combine_nsamples3 nsampleCounter (some nsampleCounter) 0 1 0 0
      = 2 := by
    show Real.sqrt (nsampleCounter 1 0 0 * nsampleCounter 0 0 0) = 2
    have : nsampleCounter 1 0 0 * nsampleCounter 0 0 0 = 2 ^ 2 := by
      simp [nsampleCounter]
      try norm_num
    rw [this, Real.sqrt_sq (by norm_num : (0:ℝ) ≤ 2)]
  constructor
  · rw [hval]
    simp [nsampleCounter]
  · rw [hval]
    simp [nsampleCounter]
    try norm_num

/-- C4 amended: for every non-negative array `n`, `combine_nsamples(n, n)`
is the elementwise geometric mean over the doubled baseline square —
entry `(b1, b2)` equals `sqrt(n[b1] * n[b2])` — and in particular the
entries pairing a baseline with itself equal `n` at that baseline (the
geometric mean of identical values is the value itself).  Both the
rank-3 and the rank-4 (leading polarisation) branches are covered. -/
theorem combine_nsamples_geometric_mean :
    (∀ (b t f : ℕ) (n : RArr3 b t f), (∀ i j k, 0 ≤ n i j k) →
      (∀ b1 b2 ti fi, combine_nsamples3 n (some n) b1 b2 ti fi =
        Real.sqrt (n b1 ti fi * n b2 ti fi)) ∧
      (∀ bl ti fi, combine_nsamples3 n (some n) bl bl ti fi = n bl ti fi))
    ∧ (∀ (p b t f : ℕ) (n : RArr4 p b t f), (∀ q i j k, 0 ≤ n q i j k) →
      (∀ po b1 b2 ti fi, combine_nsamples4 n (some n) po b1 b2 ti fi =
        Real.sqrt (n po b1 ti fi * n po b2 ti fi)) ∧
      (∀ po bl ti fi, combine_nsamples4 n (some n) po bl bl ti fi =
        n po bl ti fi)) := by
  constructor
  · intro b t f n hn
    refine ⟨fun b1 b2 ti fi => ?_, fun bl ti fi => ?_⟩
    · show Real.sqrt (n b2 ti fi * n b1 ti fi) = _
      rw [mul_comm]
    · show Real.sqrt (n bl ti fi * n bl ti fi) = _
      exact Real.sqrt_mul_self (hn bl ti fi)
  · intro p b t f n hn
    refine ⟨fun po b1 b2 ti fi => ?_, fun po bl ti fi => ?_⟩
    · show Real.sqrt (n po b2 ti fi * n po b1 ti fi) = _
      rw [mul_comm]
    · show Real.sqrt (n po bl ti fi * n po bl ti fi) = _
      exact Real.sqrt_mul_self (hn po bl ti fi)

/-- C4 amended, witness: on the constant rank-3 array with value 2 the
non-negativity hypothesis holds and the diagonal entry gives back 2. -/
theorem combine_nsamples_geometric_mean_witness :
    (∀ i j k : Fin 1, 0 ≤ (fun (_ : Fin 1) (_ : Fin 1) (_ : Fin 1) => (2:ℝ))
      i j k) ∧
    combine_nsamples3 ((fun _ _ _ => (2:ℝ)) : RArr3 1 1 1)
      (some (fun _ _ _ => (2:ℝ))) 0 0 0 0 = 2 :=
  ⟨fun _ _ _ => zero_le_two,
   (combine_nsamples_geometric_mean.1 1 1 1 ((fun _ _ _ => (2:ℝ)) : RArr3 1 1 1)
     (fun _ _ _ => zero_le_two)).2 0 0 0⟩

/-- C1: for same-shape inputs (enforced by the index types) and a `delta_f`
Quantity of inverse-time dimension, `delay_transform` returns exactly the
spec-side pipeline: taper by `window(Nfreqs)` along the frequency axis,
DFT along that axis, FFT-shift, multiply by `delta_f` converted to
inverse seconds and by `data_1`'s original unit, then pair every baseline
of `data_1`'s transform (conjugated) with every baseline of `data_2`'s
transform on a new baseline axis.  The rank-3 branch produces shape
`(baseline_1, baseline_2, time, freq)` and the rank-4 branch
`(pol, baseline_1, baseline_2, time, freq)`, as the result types show. -/
theorem delay_transform_matches_spec :
    (∀ (b t f : ℕ) (d1 d2 : QOr (Arr3 b t f)) (df : Quant ℝ)
        (w : (n : ℕ) → Fin n → ℝ), df.unit.dim = invSec.dim →
        delay_transform3 d1 (some d2) (some (.qty df)) w =
          .ok (delayTransformSpec3 d1 d2 df w))
    ∧ (∀ (p b t f : ℕ) (d1 d2 : QOr (Arr4 p b t f)) (df : Quant ℝ)
        (w : (n : ℕ) → Fin n → ℝ), df.unit.dim = invSec.dim →
        delay_transform4 d1 (some d2) (some (.qty df)) w =
          .ok (delayTransformSpec4 d1 d2 df w)) := by
  constructor
  · intro b t f d1 d2 df w h
    simp only [delay_transform3, delayTransformSpec3, Quant.to, h, if_true,
      Option.getD_some, smul_eq_mul]
  · intro p b t f d1 d2 df w h
    simp only [delay_transform4, delayTransformSpec4, Quant.to, h, if_true,
      Option.getD_some, smul_eq_mul]

/-- C1 witness: a concrete rank-3 call with one baseline, time and
frequency, plain zero data and `delta_f = 1 Hz` satisfies the dimension
hypothesis and matches the spec pipeline. -/
theorem delay_transform_matches_spec_witness :
    (Quant.mk (1 : ℝ) Hz).unit.dim = invSec.dim ∧
    delay_transform3 (.plain (fun _ _ _ => 0 : Arr3 1 1 1))
        (some (.plain (fun _ _ _ => 0))) (some (.qty ⟨1, Hz⟩))
        (fun _ _ => 1) =
      .ok (delayTransformSpec3 (.plain (fun _ _ _ => 0))
        (.plain (fun _ _ _ => 0)) ⟨1, Hz⟩ (fun _ _ => 1)) :=
  ⟨rfl,
   delay_transform_matches_spec.1 1 1 1 (.plain (fun _ _ _ => 0))
     (.plain (fun _ _ _ => 0)) ⟨1, Hz⟩ (fun _ _ => 1) rfl⟩

/-- Spec-side rank-4 off-diagonal selection, written from the claim: for the
row-major pair order `offDiagPairs`, take the `(b1, b2)` block of
`Ntimes * Nfreqs` entries. -/
def offDiagSelect4 {α : Type} (n t f : ℕ) (data : List α) : List α :=
  (offDiagPairs n).flatMap fun ij =>
    npTake data ((ij.1 * n + ij.2) * (t * f)) (t * f)

/-- Spec-side rank-5 off-diagonal selection: the rank-4 selection applied
within each leading-polarisation slice. -/
def offDiagSelect5 {α : Type} (p n t f : ℕ) (data : List α) : List α :=
  (List.range p).flatMap fun q =>
    offDiagSelect4 n t f (npTake data (q * (n * n * (t * f))) (n * n * (t * f)))

theorem autoMask_eq_bne (n i j : ℕ) : autoMask n i j = (j != i) := by
  by_cases h : i = j
  · simp [autoMask, npDiagOnes, h]
  · simp [autoMask, npDiagOnes, bne, beq_iff_eq, h, Ne.symm h]

theorem maskTruePairs_autoMask (n : ℕ) :
    maskTruePairs (autoMask n) n n = offDiagPairs n := by
  unfold maskTruePairs offDiagPairs
  apply congrArg
  funext i
  rw [List.filter_congr (fun j _ => autoMask_eq_bne n i j)]

theorem filter_bne_range_length (i : ℕ) :
    ∀ n, i < n → ((List.range n).filter (fun j => j != i)).length = n - 1 := by
  intro n
  induction n with
  | zero => intro h; exact absurd h (Nat.not_lt_zero i)
  | succ n ih =>
    intro h
    rw [List.range_succ, List.filter_append, List.length_append]
    rcases Nat.lt_or_ge i n with hlt | hge
    · have hne : (n != i) = true := by
        simp [bne, beq_iff_eq]
        omega
      rw [ih hlt]
      simp [hne]
      omega
    · have hi : i = n := by omega
      subst hi
      have hall : (List.range i).filter (fun j => j != i) = List.range i := by
        apply List.filter_eq_self.mpr
        intro j hj
        have : j < i := List.mem_range.mp hj
        simp [bne, beq_iff_eq]
        omega
      rw [hall]
      simp

theorem offDiagPairs_length (n : ℕ) :
    (offDiagPairs n).length = n * (n - 1) := by
  unfold offDiagPairs
  rw [List.length_flatMap]
  have hrep : (List.range n).map
      (List.length ∘ fun b1 =>
        ((List.range n).filter (fun b2 => b2 != b1)).map (fun b2 => (b1, b2)))
      = List.replicate n (n - 1) := by
    apply List.eq_replicate_iff.mpr
    refine ⟨by simp, ?_⟩
    intro x hx
    rcases List.mem_map.mp hx with ⟨b1, hb1, hx⟩
    have hlt : b1 < n := List.mem_range.mp hb1
    rw [← hx]
    simp only [Function.comp_apply, List.length_map]
    exact filter_bne_range_length b1 n hlt
  rw [hrep, List.sum_replicate, smul_eq_mul]

theorem offDiagPairs_no_diagonal (n : ℕ) :
    ∀ ij ∈ offDiagPairs n, ij.1 ≠ ij.2 := by
  intro ij hij
  rcases List.mem_flatMap.mp hij with ⟨b1, _, hmem⟩
  rcases List.mem_map.mp hmem with ⟨b2, hb2, hpair⟩
  have hne : b2 ≠ b1 := by
    have := (List.mem_filter.mp hb2).2
    simpa [bne, beq_iff_eq] using this
  rw [← hpair]
  exact fun hcontr => hne hcontr.symm

/-- C3: `remove_auto_correlations` on a rank-4 array with a square
`(Nbls, Nbls)` leading block returns the off-diagonal entries collapsed
into one axis of length `Nbls * (Nbls - 1)` in row-major order
(`offDiagPairs`: baseline_1 increases first, then all
baseline_2 ≠ baseline_1 ascending); the rank-5 branch does the same
inside each polarisation slice; no diagonal pair `(i, i)` is selected;
any other rank fails with the `ValueError` shape message; and on the
`(3,3,1,1)` input holding `0..8` row-major the result is
`[1, 2, 3, 5, 6, 7]`. -/
theorem remove_auto_correlations_spec :
    (∀ (α : Type) (a : NDArray α) (n t f : ℕ), a.shape = [n, n, t, f] →
      remove_auto_correlations a =
        .ok ⟨[n * (n - 1), t, f], offDiagSelect4 n t f a.data⟩)
    ∧ (∀ (α : Type) (a : NDArray α) (p n t f : ℕ),
        a.shape = [p, n, n, t, f] →
        remove_auto_correlations a =
          .ok ⟨[p, n * (n - 1), t, f], offDiagSelect5 p n t f a.data⟩)
    ∧ (∀ (α : Type) (a : NDArray α), a.shape.length ≠ 4 →
        a.shape.length ≠ 5 → remove_auto_correlations a = .error rankErrMsg)
    ∧ (∀ (n : ℕ) (ij : ℕ × ℕ), ij ∈ offDiagPairs n → ij.1 ≠ ij.2)
    ∧ ((offDiagPairs 3).length = 3 * (3 - 1))
    ∧ (remove_auto_correlations
        (⟨[3, 3, 1, 1], [0, 1, 2, 3, 4, 5, 6, 7, 8]⟩ : NDArray ℕ) =
        .ok ⟨[6, 1, 1], [1, 2, 3, 5, 6, 7]⟩) := by
  refine ⟨?_, ?_, ?_, offDiagPairs_no_diagonal, offDiagPairs_length 3, rfl⟩
  · intro α a n t f hsh
    obtain ⟨sh, data⟩ := a
    simp only at hsh
    subst hsh
    simp [remove_auto_correlations, boolIndexFirst2, offDiagSelect4,
      maskTruePairs_autoMask, offDiagPairs_length]
  · intro α a p n t f hsh
    obtain ⟨sh, data⟩ := a
    simp only at hsh
    subst hsh
    simp [remove_auto_correlations, boolIndexFirst2, offDiagSelect5,
      offDiagSelect4, maskTruePairs_autoMask, offDiagPairs_length]
  · intro α a h4 h5
    unfold remove_auto_correlations
    rw [if_neg h4, if_neg h5]

/-- C3 witness: the rank-4 part of the theorem applied to the concrete
`(3,3,1,1)` array of values `0..8`. -/
theorem remove_auto_correlations_spec_witness :
    (⟨[3, 3, 1, 1], [0, 1, 2, 3, 4, 5, 6, 7, 8]⟩ : NDArray ℕ).shape =
      [3, 3, 1, 1] ∧
    remove_auto_correlations
      (⟨[3, 3, 1, 1], [0, 1, 2, 3, 4, 5, 6, 7, 8]⟩ : NDArray ℕ) =
      .ok ⟨[3 * (3 - 1), 1, 1],
        offDiagSelect4 3 1 1 [0, 1, 2, 3, 4, 5, 6, 7, 8]⟩ :=
  ⟨rfl, remove_auto_correlations_spec.1 ℕ
    ⟨[3, 3, 1, 1], [0, 1, 2, 3, 4, 5, 6, 7, 8]⟩ 3 1 1 rfl⟩

/-- C9: on a frequency Quantity, `jy_to_mk` returns exactly
`c^2 / (2 * freqs^2 * k_B)` (the frequency taken in SI inverse seconds)
converted to milliKelvin per Jansky, and a non-Quantity input fails with
the assertion error. -/
theorem jy_to_mk_matches_spec :
    (∀ x : ℝ, jy_to_mk (.plain x) = .error assertMsg)
    ∧ (∀ fq : Quant ℝ, fq.unit.dim = Hz.dim →
        jy_to_mk (.qty fq) = .ok (jyToMkSpec fq)) := by
  refine ⟨fun _ => rfl, ?_⟩
  intro fq h
  have h2 : fq.unit.dim = invSec.dim := h
  have h3 : ((mPerS.qpow 2).divU ((invSec.qpow 2).mulU JperK)).dim
      = mKperJy.dim := by
    simp only [PhysUnit.qpow, PhysUnit.divU, PhysUnit.mulU, mPerS, invSec,
      JperK, mKperJy, mKel, JyUnit, Dims.sub, Dims.add, Dims.qsmul,
      Dims.mk.injEq]
    norm_num
  have hS : ((mPerS.qpow 2).divU ((invSec.qpow 2).mulU JperK)).scale = 1 := by
    simp [PhysUnit.qpow, PhysUnit.divU, PhysUnit.mulU, mPerS, invSec, JperK,
      Real.one_rpow]
  simp only [jy_to_mk, Quant.to, constC, constKB, h2, eq_self_iff_true,
    if_true, smul_eq_mul]
  rw [if_pos h3]
  rw [Except.ok.injEq]
  unfold jyToMkSpec
  rw [Quant.mk.injEq]
  refine ⟨?_, rfl⟩
  rw [hS]
  simp only [mPerS, invSec, constC, constKB]
  ring

/-- C9 witness: a concrete 150 MHz frequency Quantity satisfies the
dimension hypothesis, and the call returns the spec value. -/
theorem jy_to_mk_matches_spec_witness :
    (Quant.mk (150000000 : ℝ) Hz).unit.dim = Hz.dim ∧
    jy_to_mk (.qty ⟨150000000, Hz⟩) = .ok (jyToMkSpec ⟨150000000, Hz⟩) :=
  ⟨rfl, jy_to_mk_matches_spec.2 ⟨150000000, Hz⟩ rfl⟩

/-- Left operand for the C10 counterexample: a two-element metre-valued
parameter. -/
noncomputable def upLeft : UnitParameter :=
  ⟨"freq_array", ⟨[0, 0], meterUnit⟩, 0, 0, some meterUnit⟩

/-- Right operand for the C10 counterexample: a one-element
centimetre-valued parameter — units equivalent to the left operand's but
a different shape. -/
noncomputable def upRight : UnitParameter :=
  ⟨"freq_array", ⟨[0], cmUnit⟩, 0, 0, some cmUnit⟩

/-- C10 counterexample: two quantity-valued `UnitParameter`s with equivalent
(dimensionally equal) units but different value shapes take the
shape-mismatch early return of `__eq__`, so the right operand's value is
NOT overwritten and its unit still differs from the left operand's —
refuting the claim, which requires only equivalent units. -/
theorem unitparameter_eq_shape_mismatch_no_conversion :
    upLeft.value.unit.dim = upRight.value.unit.dim ∧
    ((upLeft.eqQty upRight).2.2).value.unit ≠ upLeft.value.unit := by
  constructor
  · rfl
  · have hpost : (upLeft.eqQty upRight).2.2 = upRight := by
      unfold UnitParameter.eqQty upLeft upRight
      simp
    rw [hpost]
    intro hcontr
    have := congrArg PhysUnit.scale hcontr
    simp [upLeft, upRight, cmUnit, meterUnit] at this
    try norm_num at this

/-- C10 amended: for two quantity-valued `UnitParameter`s whose values have
the same shape AND equivalent units, evaluating `left == right`
overwrites the right operand's stored value with that value converted to
the left operand's unit (so afterwards the right operand's value unit
equals the left operand's), leaves the left operand's value untouched,
and — when the left operand's absolute tolerance carries no unit —
rebinds the left tolerance with the left value's unit attached. -/
theorem unitparameter_eq_converts_other :
    ∀ s o : UnitParameter,
      s.value.val.length = o.value.val.length →
      s.value.unit.dim = o.value.unit.dim →
      ((s.eqQty o).2.2).value =
        ⟨o.value.val.map
          (fun x => (o.value.unit.scale / s.value.unit.scale) * x),
         s.value.unit⟩ ∧
      ((s.eqQty o).2.2).value.unit = s.value.unit ∧
      ((s.eqQty o).2.1).value = s.value ∧
      (s.atolUnit = none →
        (s.eqQty o).2.1.atolUnit = some s.value.unit) := by
  intro s o hlen hdim
  unfold UnitParameter.eqQty
  cases hA : s.atolUnit with
  | none =>
    simp only [hA]
    rw [if_pos hlen, if_pos hdim]
    exact ⟨rfl, rfl, rfl, fun _ => rfl⟩
  | some u =>
    simp only [hA]
    rw [if_pos hlen, if_pos hdim]
    exact ⟨rfl, rfl, rfl, fun hcontr => absurd hcontr (Option.some_ne_none u)⟩

/-- C10 amended, witness: concrete same-shape metre/centimetre parameters
satisfy the hypotheses; after comparison the right operand holds the
converted value in the left operand's unit. -/
noncomputable def upLeftW : UnitParameter :=
  ⟨"freq_array", ⟨[1], meterUnit⟩, 0, 0, none⟩

noncomputable def upRightW : UnitParameter :=
  ⟨"freq_array", ⟨[100], cmUnit⟩, 0, 0, some cmUnit⟩

theorem unitparameter_eq_converts_other_witness :
    upLeftW.value.val.length = upRightW.value.val.length ∧
    ((upLeftW.eqQty upRightW).2.2).value =
      ⟨upRightW.value.val.map
        (fun x => (upRightW.value.unit.scale / upLeftW.value.unit.scale) * x),
       upLeftW.value.unit⟩ :=
  ⟨rfl, (unitparameter_eq_converts_other upLeftW upRightW rfl rfl).1⟩

/-- Uniform channel spacing: every successive difference of the frequency
values is the same. -/
def uniformSpacing {nf : ℕ} (v : Fin nf → ℝ) : Prop :=
  ∀ (i j : ℕ) (hi : i + 1 < nf) (hj : j + 1 < nf),
    v ⟨i + 1, hi⟩ - v ⟨i, Nat.lt_of_succ_lt hi⟩ =
      v ⟨j + 1, hj⟩ - v ⟨j, Nat.lt_of_succ_lt hj⟩

/-- C2: for Quantity arguments of frequency, time and temperature dimension
(with at least two channels, uniformly spaced), `calculate_noise_power`
returns exactly the spec formula: `T_sys / sqrt(channel_width * inttime *
nsamples)` with `T_sys = 180 K * (nu / 0.18 GHz)^(-2.55) + trcvr` in
Kelvin, the channel width the first successive difference of `freqs`
converted to inverse seconds, and `inttime` in seconds — a Kelvin
quantity of the same shape as `nsamples` (by type). -/
theorem calculate_noise_power_matches_spec :
    ∀ (nf : ℕ) (ns : Fin nf → ℝ) (fq : Quant (Fin nf → ℝ)) (it tr : Quant ℝ)
      (h : 1 < nf), fq.unit.dim = Hz.dim → it.unit.dim = secUnit.dim →
      tr.unit.dim = Kel.dim → uniformSpacing fq.val →
      calculate_noise_power ns (.qty fq) (.qty it) (.qty tr) =
        .ok (noisePowerSpec ns fq it tr h) := by
  intro nf ns fq it tr h hF hIt hTr _
  have hF2 : fq.unit.dim = GHzUnit.dim := hF
  have hF3 : fq.unit.dim = invSec.dim := hF
  have c1 : (fq.unit.dim = GHzUnit.dim) = True := eq_true hF2
  have c2 : (Kel.dim =
      (Kel.mulU ((GHzUnit.divU GHzUnit).qpow (-2.55))).dim) = True := by
    apply eq_true
    simp only [PhysUnit.mulU, PhysUnit.divU, PhysUnit.qpow, Kel, GHzUnit,
      Dims.add, Dims.sub, Dims.qsmul, Dims.mk.injEq]
    norm_num
  have c5 : ((Kel.mulU ((GHzUnit.divU GHzUnit).qpow (-2.55))).dim =
      Kel.dim) = True := by
    apply eq_true
    simp only [PhysUnit.mulU, PhysUnit.divU, PhysUnit.qpow, Kel, GHzUnit,
      Dims.add, Dims.sub, Dims.qsmul, Dims.mk.injEq]
    norm_num
  have c3 : (fq.unit.dim = invSec.dim) = True := eq_true hF3
  have c4 : (it.unit.dim = secUnit.dim) = True := eq_true hIt
  have c6 : (tr.unit.dim = Kel.dim) = True := eq_true hTr
  simp only [calculate_noise_power, addScalarQ, Quant.to, c1, c2, c3, c4, c5,
    c6, if_true, h, dite_true]
  rw [Except.ok.injEq]
  unfold noisePowerSpec
  rw [Quant.mk.injEq]
  constructor
  · funext i
    have hX : (Kel.mulU ((GHzUnit.divU GHzUnit).qpow (-2.55))).scale = 1 := by
      simp [PhysUnit.mulU, PhysUnit.divU, PhysUnit.qpow, Kel, GHzUnit]
      try norm_num [Real.one_rpow]
    simp only [hX]
    simp only [Pi.smul_apply, smul_eq_mul, Kel, invSec, secUnit, GHzUnit,
      div_one, one_mul, mul_one]
    have hb : (fq.unit.scale / 10 ^ 9 * fq.val i / 0.18 : ℝ)
        = fq.val i * fq.unit.scale / (0.18 * 10 ^ 9) := by
      field_simp
      ring
    have hd : fq.unit.scale * (fq.val ⟨1, h⟩ -
          fq.val ⟨0, Nat.lt_of_le_of_lt (Nat.zero_le 1) h⟩) *
          (it.unit.scale * it.val) * ns i
        = (fq.val ⟨1, h⟩ - fq.val ⟨0, Nat.lt_of_le_of_lt (Nat.zero_le 1) h⟩) *
          fq.unit.scale * (it.val * it.unit.scale) * ns i := by
      ring
    rw [hb, hd]
    congr 1
    ring
  · simp only [PhysUnit.divU, PhysUnit.mulU, PhysUnit.sqrtU, invSec, secUnit,
      Kel, Dims.sub, Dims.add, Dims.qsmul, PhysUnit.mk.injEq, Dims.mk.injEq]
    norm_num [Real.sqrt_one]

/-- C2 witness: two uniformly spaced channels at 1 Hz and 2 Hz, one-second
integration and a 100 K receiver satisfy every hypothesis, and the call
returns the spec formula. -/
theorem calculate_noise_power_matches_spec_witness :
    uniformSpacing (fun i : Fin 2 => (i.val + 1 : ℝ)) ∧
    calculate_noise_power (fun _ : Fin 2 => (1:ℝ))
        (.qty ⟨fun i : Fin 2 => (i.val + 1 : ℝ), Hz⟩) (.qty ⟨1, secUnit⟩)
        (.qty ⟨100, Kel⟩) =
      .ok (noisePowerSpec (fun _ : Fin 2 => (1:ℝ))
        ⟨fun i : Fin 2 => (i.val + 1 : ℝ), Hz⟩ ⟨1, secUnit⟩ ⟨100, Kel⟩
        (by decide)) := by
  have hu : uniformSpacing (fun i : Fin 2 => (i.val + 1 : ℝ)) := by
    intro i j hi hj
    have hi0 : i = 0 := by omega
    have hj0 : j = 0 := by omega
    subst hi0
    subst hj0
    rfl
  exact ⟨hu, calculate_noise_power_matches_spec 2 (fun _ => 1)
    ⟨fun i => (i.val + 1 : ℝ), Hz⟩ ⟨1, secUnit⟩ ⟨100, Kel⟩ (by decide) rfl rfl
    rfl hu⟩

end SimpleDS
